import Mathlib

/-!
Verification development for the brainzOS repository: a shallow embedding of
its preprocessing pipeline, batching, user/API-key management and
prompt-logging logic, together with theorems about the specified properties.

Python strings are modelled as Lean String, Python int as Int (lengths as
Nat where the source value is a length), lists as List, and fallible or
effectful code as explicit state passing plus Except. The external
text-normalization collaborator (backend.data.cleaner.full_clean, absent
from the sources) and the tokenizer are passed as function parameters.
-/

namespace BrainzOS

/-- Word-splitting loop over the characters of a string: whitespace runs
separate words, no empty words are produced. Auxiliary for pySplit. -/
def wordsAux : List Char → List Char → List String
  | [], [] => []
  | [], acc => [String.mk acc.reverse]
  | c :: cs, acc =>
    if c.isWhitespace then
      if acc.isEmpty then wordsAux cs []
      else String.mk acc.reverse :: wordsAux cs []
    else wordsAux cs (c :: acc)

/-- Python str.split() with no argument: split on runs of whitespace and
drop empty pieces. -/
def pySplit (s : String) : List String :=
  wordsAux s.data []

/-- Number of whitespace-separated words of a string, as used by the
word-based length filters. -/
def wordCount (s : String) : Nat :=
  (pySplit s).length

/-- Loop body of the exact-match deduplication used in _prepare_texts and
sanitize_texts: iterate over the list, keep an element only when it has not
been seen before, remembering seen elements. Direct translation of the
Python for-loop with a seen set and an output accumulator. -/
def dedupeGo (seen : List String) : List String → List String
  | [] => []
  | t :: ts =>
    if t ∈ seen then dedupeGo seen ts
    else t :: dedupeGo (t :: seen) ts

/-- Exact-match deduplication preserving first-seen order, as in the
Python loops (seen starts empty). -/
def dedupe_exact (texts : List String) : List String :=
  dedupeGo [] texts

/-- Declarative characterization of first-seen deduplication: keep the
head and erase every later copy of it. Used to state what the imperative
loop computes. -/
def keepFirst : List String → List String
  | [] => []
  | t :: ts => t :: keepFirst (ts.filter (fun x => decide (x ≠ t)))
termination_by l => l.length
decreasing_by
  simp_wf
  exact Nat.lt_succ_of_le (List.length_filter_le _ _)

/-- Character-based minimum-length filter of _prepare_texts
(src/backend/api/routes/train.py lines 76 to 78), including the Python
truthiness guard: only applied when min_length is strictly positive. -/
def char_length_filter (texts : List String) (min_length : Int) : List String :=
  if 0 < min_length then
    texts.filter (fun t => min_length ≤ (t.length : Int))
  else texts

/-- Stats record returned by _prepare_texts. -/
structure PrepStats where
  original : Nat
  processed : Nat
  removed : Int
  clean_applied : Bool
  deduplicated : Bool
  min_length : Int
  deriving DecidableEq, Repr

/-- Embedding of _prepare_texts (src/backend/api/routes/train.py lines 63
to 98): optional cleaning pass, then the guarded character length filter,
then optional exact-match deduplication, plus the stats record. The
cleaning collaborator full_clean is a parameter. -/
def prepare_texts (full_clean : String → String) (texts : List String)
    (clean deduplicate : Bool) (min_length : Int) : List String × PrepStats :=
  let original_count := texts.length
  let t1 := if clean then texts.map full_clean else texts
  let t2 := char_length_filter t1 min_length
  let t3 := if deduplicate then dedupe_exact t2 else t2
  (t3,
   { original := original_count
     processed := t3.length
     removed := (original_count : Int) - (t3.length : Int)
     clean_applied := clean
     deduplicated := deduplicate
     min_length := min_length })

/-- Word-based minimum-length filter of sanitize_texts
(src/backend/cli/train.py lines 82 to 83). -/
def word_length_filter (texts : List String) (min_words : Int) : List String :=
  texts.filter (fun t => max 0 min_words ≤ (wordCount t : Int))

/-- Stats record returned by sanitize_texts. -/
structure SanitizeStats where
  original : Nat
  after_min_words : Nat
  deduped : Bool
  removed : Int
  min_words : Int
  deriving DecidableEq, Repr

/-- Embedding of sanitize_texts (src/backend/cli/train.py lines 65 to
102): word-based length filter, then optional stable deduplication, plus
stats. -/
def sanitize_texts (texts : List String) (min_words : Int) (dedupe : Bool) :
    List String × SanitizeStats :=
  let original := texts.length
  let filtered := word_length_filter texts min_words
  let filtered2 := if dedupe then dedupe_exact filtered else filtered
  (filtered2,
   { original := original
     after_min_words := filtered2.length
     deduped := dedupe
     removed := (original : Int) - (filtered2.length : Int)
     min_words := min_words })

/-- Text-preparation portion of get_training_dataset
(src/backend/data/dataset.py lines 52 to 56): optional cleaning pass then
the word-based length filter; tokenization and Dataset construction are
external library calls and are not part of the preparation logic. -/
def get_training_dataset_filtered (full_clean : String → String)
    (texts : List String) (clean : Bool) (min_length : Int) : List String :=
  let t1 := if clean then texts.map full_clean else texts
  t1.filter (fun t => min_length ≤ (wordCount t : Int))

/-! ### Lemmas about first-seen deduplication -/

theorem dedupeGo_eq_keepFirst (l : List String) :
    ∀ seen, dedupeGo seen l = keepFirst (l.filter (fun x => decide (x ∉ seen))) := by
  induction l with
  | nil => intro seen; simp [dedupeGo, keepFirst]
  | cons t ts ih =>
    intro seen
    by_cases h : t ∈ seen
    · simp [dedupeGo, h, ih seen]
    · have hfun : ∀ x, (decide (x ≠ t) && decide (x ∉ seen))
          = decide (x ∉ t :: seen) := by
        intro x
        by_cases h1 : x = t <;> by_cases h2 : x ∈ seen <;> simp [h1, h2]
      simp only [dedupeGo, h, if_false, ih (t :: seen)]
      have : (t :: ts).filter (fun x => decide (x ∉ seen))
          = t :: ts.filter (fun x => decide (x ∉ seen)) := by
        simp [List.filter_cons, h]
      rw [this, keepFirst, List.filter_filter]
      congr 1
      exact congrArg keepFirst (List.filter_congr (fun x _ => hfun x)).symm

theorem dedupe_exact_eq_keepFirst (l : List String) :
    dedupe_exact l = keepFirst l := by
  rw [dedupe_exact, dedupeGo_eq_keepFirst]
  congr 1
  simp

theorem keepFirst_sublist (l : List String) : (keepFirst l).Sublist l := by
  induction l using keepFirst.induct with
  | case1 => simp [keepFirst]
  | case2 t ts ih =>
    rw [keepFirst]
    exact (ih.trans (List.filter_sublist ts)).cons₂ t

theorem keepFirst_nodup (l : List String) : (keepFirst l).Nodup := by
  induction l using keepFirst.induct with
  | case1 => simp [keepFirst]
  | case2 t ts ih =>
    rw [keepFirst]
    refine List.nodup_cons.mpr ⟨?_, ih⟩
    intro hmem
    have hf := (keepFirst_sublist _).subset hmem
    have := List.of_mem_filter hf
    simp at this

theorem keepFirst_eq_self_of_nodup (l : List String) (h : l.Nodup) :
    keepFirst l = l := by
  induction l using keepFirst.induct with
  | case1 => simp [keepFirst]
  | case2 t ts ih =>
    rw [keepFirst]
    rcases List.nodup_cons.mp h with ⟨hnot, hts⟩
    have hfil : ts.filter (fun x => decide (x ≠ t)) = ts := by
      apply List.filter_eq_self.mpr
      intro x hx
      simp only [decide_eq_true_eq]
      intro hxt
      exact hnot (hxt ▸ hx)
    rw [hfil] at ih ⊢
    rw [ih hts]

/-! ### Claim theorems about the pipeline -/

/-- Claim C1: for every input list and flags, _prepare_texts applies, in
this fixed order, the optional cleaning pass, the length filter dropping
entries shorter than min_length, and the optional first-seen exact-match
deduplication; the stats record satisfies original = input length,
processed = output length, removed = original - processed. The
deduplication step is characterized by the keep-first recursion, is a
sublist of its input (order preserved) and produces no duplicates. -/
theorem prepare_texts_fixed_order (fc : String → String) (texts : List String)
    (clean dedup : Bool) (n : Int) :
    (prepare_texts fc texts clean dedup n).1
      = (if dedup then
           keepFirst (char_length_filter (if clean then texts.map fc else texts) n)
         else char_length_filter (if clean then texts.map fc else texts) n)
    ∧ char_length_filter (if clean then texts.map fc else texts) n
      = (if clean then texts.map fc else texts).filter (fun t => n ≤ (t.length : Int))
    ∧ (prepare_texts fc texts clean dedup n).2.original = texts.length
    ∧ (prepare_texts fc texts clean dedup n).2.processed
      = (prepare_texts fc texts clean dedup n).1.length
    ∧ (prepare_texts fc texts clean dedup n).2.removed
      = (texts.length : Int) - ((prepare_texts fc texts clean dedup n).1.length : Int)
    ∧ (keepFirst (char_length_filter (if clean then texts.map fc else texts) n)).Sublist
        (char_length_filter (if clean then texts.map fc else texts) n)
    ∧ (keepFirst (char_length_filter (if clean then texts.map fc else texts) n)).Nodup := by
  refine ⟨?_, ?_, rfl, rfl, rfl, keepFirst_sublist _, keepFirst_nodup _⟩
  · simp only [prepare_texts, dedupe_exact_eq_keepFirst]
  · rw [char_length_filter]
    by_cases h : 0 < n
    · simp [h]
    · rw [if_neg h]
      symm
      apply List.filter_eq_self.mpr
      intro t _
      simp only [decide_eq_true_eq]
      omega

/-- Claim C4: each of the three minimum-length filter sites (character
based in _prepare_texts, word based in sanitize_texts and in
get_training_dataset) never increases the size of the list. -/
theorem length_filters_never_increase (fc : String → String) (texts : List String)
    (n : Int) (clean : Bool) :
    (char_length_filter texts n).length ≤ texts.length
    ∧ (word_length_filter texts n).length ≤ texts.length
    ∧ (get_training_dataset_filtered fc texts clean n).length
      ≤ (if clean then texts.map fc else texts).length := by
  refine ⟨?_, ?_, ?_⟩
  · rw [char_length_filter]
    by_cases h : 0 < n
    · rw [if_pos h]; exact List.length_filter_le _ _
    · rw [if_neg h]
  · exact List.length_filter_le _ _
  · exact List.length_filter_le _ _

theorem char_length_filter_subset (l : List String) (n : Int) :
    char_length_filter l n ⊆ l := by
  rw [char_length_filter]
  by_cases h : 0 < n
  · rw [if_pos h]; exact fun x hx => List.mem_of_mem_filter hx
  · rw [if_neg h]; exact fun x hx => hx

theorem mem_char_length_filter (l : List String) (n : Int) (x : String)
    (hx : x ∈ char_length_filter l n) : n ≤ (x.length : Int) ∨ ¬ 0 < n := by
  rw [char_length_filter] at hx
  by_cases h : 0 < n
  · rw [if_pos h] at hx
    exact Or.inl (by simpa using (List.mem_filter.mp hx).2)
  · exact Or.inr h

/-- Claim C3 (as stated) is false on the code: with the cleaning pass
enabled, a second application re-applies the cleaning collaborator, so a
collaborator that is not idempotent changes the output again. Concrete
input: collaborator appending the letter x, input list with one element
a, clean and deduplicate enabled, min_length 0. -/
theorem prepare_texts_not_idempotent :
    ¬ ((prepare_texts (fun s => s ++ "x")
          ((prepare_texts (fun s => s ++ "x") ["a"] true true 0).1) true true 0).1
        = (prepare_texts (fun s => s ++ "x") ["a"] true true 0).1) := by
  decide

/-- Claim C3 amended: with deduplication enabled, the pipeline is
idempotent provided the cleaning pass is disabled or the cleaning
collaborator is idempotent; the CLI sanitize_texts (which has no cleaning
pass) is idempotent with dedupe enabled unconditionally. -/
theorem pipeline_idempotent_once_deduped (fc : String → String)
    (texts texts2 : List String) (clean dedup : Bool) (n mw : Int)
    (hd : dedup = true)
    (hc : clean = false ∨ ∀ s, fc (fc s) = fc s) :
    (prepare_texts fc ((prepare_texts fc texts clean dedup n).1) clean dedup n).1
      = (prepare_texts fc texts clean dedup n).1
    ∧ (sanitize_texts ((sanitize_texts texts2 mw true).1) mw true).1
      = (sanitize_texts texts2 mw true).1 := by
  subst hd
  constructor
  · set t1 := if clean then texts.map fc else texts with ht1
    have ho : (prepare_texts fc texts clean true n).1
        = keepFirst (char_length_filter t1 n) := by
      simp only [prepare_texts, dedupe_exact_eq_keepFirst, if_pos]
    set o := (prepare_texts fc texts clean true n).1 with hodef
    have honodup : o.Nodup := by rw [ho]; exact keepFirst_nodup _
    have hmem : ∀ x ∈ o, x ∈ char_length_filter t1 n := by
      intro x hx
      rw [ho] at hx
      exact (keepFirst_sublist _).subset hx
    -- second cleaning pass leaves o unchanged
    have hclean : (if clean then o.map fc else o) = o := by
      cases hc with
      | inl h => rw [h]; simp
      | inr hfc =>
        by_cases hcl : clean = true
        · rw [if_pos hcl]
          have : ∀ x ∈ o, fc x = x := by
            intro x hx
            have hx1 : x ∈ t1 := char_length_filter_subset _ _ (hmem x hx)
            rw [ht1, if_pos hcl] at hx1
            obtain ⟨y, _, hy⟩ := List.mem_map.mp hx1
            rw [← hy]; exact hfc y
          calc o.map fc = o.map id := List.map_congr_left this
            _ = o := List.map_id o
        · rw [if_neg hcl]
    -- second length filter leaves o unchanged
    have hfilter : char_length_filter o n = o := by
      rw [char_length_filter]
      by_cases hn : 0 < n
      · rw [if_pos hn]
        apply List.filter_eq_self.mpr
        intro x hx
        rcases mem_char_length_filter t1 n x (hmem x hx) with h | h
        · simpa using h
        · exact absurd hn h
      · rw [if_neg hn]
    show (prepare_texts fc o clean true n).1 = o
    simp only [prepare_texts, dedupe_exact_eq_keepFirst, hclean, hfilter]
    exact keepFirst_eq_self_of_nodup o honodup
  · have ho2 : (sanitize_texts texts2 mw true).1
        = keepFirst (word_length_filter texts2 mw) := by
      simp only [sanitize_texts, dedupe_exact_eq_keepFirst, if_pos]
    set o2 := (sanitize_texts texts2 mw true).1 with ho2def
    have hnodup : o2.Nodup := by rw [ho2]; exact keepFirst_nodup _
    have hmem : ∀ x ∈ o2, x ∈ word_length_filter texts2 mw := by
      intro x hx
      rw [ho2] at hx
      exact (keepFirst_sublist _).subset hx
    have hfilter : word_length_filter o2 mw = o2 := by
      rw [word_length_filter]
      apply List.filter_eq_self.mpr
      intro x hx
      have := (List.mem_filter.mp (hmem x hx)).2
      simpa [word_length_filter] using this
    show (sanitize_texts o2 mw true).1 = o2
    simp only [sanitize_texts, dedupe_exact_eq_keepFirst, hfilter]
    exact keepFirst_eq_self_of_nodup o2 hnodup

/-- Concrete instance of the amended idempotence claim. -/
theorem pipeline_idempotent_once_deduped_witness :
    (prepare_texts id ((prepare_texts id ["a", "a", "bbb"] false true 2).1) false true 2).1
      = (prepare_texts id ["a", "a", "bbb"] false true 2).1
    ∧ (sanitize_texts ((sanitize_texts ["x y", "x y", "z"] 1 true).1) 1 true).1
      = (sanitize_texts ["x y", "x y", "z"] 1 true).1 :=
  pipeline_idempotent_once_deduped id ["a", "a", "bbb"] ["x y", "x y", "z"]
    false true 2 1 rfl (Or.inl rfl)

/-! ### Token estimation, train endpoint, estimate endpoint, CLI, batching -/

/-- Embedding of _estimate_tokens (API route) and estimate_tokens (CLI):
sum of encoded lengths with the active tokenizer, or -1 when no tokenizer
is available. The tokenizer is a parameter giving the encoded length of a
text. -/
def estimate_tokens (tok : Option (String → Nat)) (texts : List String) : Int :=
  match tok with
  | none => -1
  | some enc => (texts.map (fun t => (enc t : Int))).sum

/-- Request payload of POST /api/llm/train (fields that affect control
flow; tags, source and request metadata are pass-through). -/
structure TrainPayload where
  texts : List String
  dry_run : Bool
  clean : Bool
  deduplicate : Bool
  min_length : Int
  deriving DecidableEq, Repr

/-- Responses of POST /api/llm/train: 400 for an empty texts list, 422
when preprocessing filters everything out, a success body (status is the
string simulated on dry runs and success otherwise), or the 500 error
wrapper when fine tuning raises. -/
inductive TrainResponse where
  | badRequest400
  | filteredOut422
  | success (status : String) (trained_samples : Nat) (estimated_tokens : Int)
      (dry_run : Bool) (preprocess : PrepStats)
  | trainingFailed500 (reason : String)
  deriving DecidableEq, Repr

/-- Embedding of train_llm (src/backend/api/routes/train.py lines 104 to
168). Returns the response together with the list of fine_tune_model
invocations (each element is the argument of one call). -/
def train_llm (fc : String → String) (tok : Option (String → Nat))
    (fine_tune : List String → Except String Unit) (p : TrainPayload) :
    TrainResponse × List (List String) :=
  if p.texts.isEmpty then (.badRequest400, [])
  else
    let pr := prepare_texts fc p.texts p.clean p.deduplicate p.min_length
    if pr.1.isEmpty then (.filteredOut422, [])
    else
      let total := estimate_tokens tok pr.1
      if p.dry_run then (.success "simulated" pr.1.length total true pr.2, [])
      else
        match fine_tune pr.1 with
        | .ok _ => (.success "success" pr.1.length total false pr.2, [pr.1])
        | .error e => (.trainingFailed500 e, [pr.1])

/-- Request payload of POST /api/llm/train/estimate. -/
structure EstimatePayload where
  texts : List String
  clean : Bool
  deduplicate : Bool
  min_length : Int
  deriving DecidableEq, Repr

/-- Responses of POST /api/llm/train/estimate: 400 for an empty texts
list, the distinct empty-status body when preprocessing filters
everything out, or the ok body with count and token estimate (the
character statistics of the ok body are computed from the same processed
list and are elided). -/
inductive EstimateResponse where
  | badRequest400
  | emptyAfterPreprocessing (preprocess : PrepStats)
  | ok (preprocess : PrepStats) (count : Nat) (token_estimate_total : Int)
  deriving DecidableEq, Repr

/-- Embedding of estimate_training (src/backend/api/routes/train.py lines
181 to 234); it performs no training call. -/
def estimate_training (fc : String → String) (tok : Option (String → Nat))
    (p : EstimatePayload) : EstimateResponse :=
  if p.texts.isEmpty then .badRequest400
  else
    let pr := prepare_texts fc p.texts p.clean p.deduplicate p.min_length
    if pr.1.isEmpty then .emptyAfterPreprocessing pr.2
    else .ok pr.2 pr.1.length (estimate_tokens tok pr.1)

/-- Consecutive slices of the given size, mirroring the Python loop
for i in range(0, total, batch_size) with chunk = texts[i : i+batch_size].
Chunk size 0 is unreachable from train_in_batches, which only chunks with
a strictly positive batch size. -/
def chunks : Nat → List String → List (List String)
  | _, [] => []
  | 0, l => [l]
  | b + 1, t :: ts =>
    (t :: ts).take (b + 1) :: chunks (b + 1) ((t :: ts).drop (b + 1))
termination_by _ l => l.length
decreasing_by
  simp only [List.length_drop, List.length_cons]
  omega

/-- Embedding of train_in_batches (src/backend/cli/train.py lines 105 to
136). Returns the list of fine_tune_model call arguments and the returned
total; batch_size None or nonpositive is the single-shot path. -/
def train_in_batches (texts : List String) (batch_size : Option Int) :
    List (List String) × Nat :=
  match batch_size with
  | none => ([texts], texts.length)
  | some b =>
    if b ≤ 0 then ([texts], texts.length)
    else
      let cs := chunks b.toNat texts
      (cs, (cs.map List.length).sum)

/-- Sequential execution of a list of fine-tune calls, stopping at the
first failure (the Python try block aborts on the first exception). -/
def runCalls (ft : List String → Except String Unit) :
    List (List String) → Except String Unit
  | [] => .ok ()
  | c :: cs =>
    match ft c with
    | .ok _ => runCalls ft cs
    | .error e => .error e

/-- The fine-tune calls actually attempted: all of them on success, the
prefix up to and including the first failing one otherwise. -/
def attemptedCalls (ft : List String → Except String Unit) :
    List (List String) → List (List String)
  | [] => []
  | c :: cs =>
    match ft c with
    | .ok _ => c :: attemptedCalls ft cs
    | .error _ => [c]

/-- Outcomes of the CLI trainer main
(src/backend/cli/train.py lines 142 to 221). -/
inductive CliOutcome where
  | loadFailed (msg : String)
  | noTexts
  | noneQualified
  | dryRunDone (loaded kept : Nat) (removed : Int) (token_estimate : Int)
  | trainedOk (trained : Nat)
  | trainingFailed (msg : String)
  deriving DecidableEq, Repr

/-- Embedding of the CLI trainer main after argument parsing: file
loading result, sanitize, preview (pure printing, elided), token
estimate, then dry-run or training (batched when batch_size is strictly
positive). Returns the outcome and the fine_tune_model call trace. -/
def cli_main (tok : Option (String → Nat)) (ft : List String → Except String Unit)
    (loaded : Except String (List String)) (min_words : Int) (dedupe : Bool)
    (batch_size : Int) (dry_run : Bool) : CliOutcome × List (List String) :=
  match loaded with
  | .error e => (.loadFailed e, [])
  | .ok texts =>
    if texts.isEmpty then (.noTexts, [])
    else
      let pr := sanitize_texts texts min_words dedupe
      if pr.1.isEmpty then (.noneQualified, [])
      else
        let token_count := estimate_tokens tok pr.1
        if dry_run then
          (.dryRunDone texts.length pr.1.length pr.2.removed token_count, [])
        else
          let calls :=
            if 0 < batch_size then (train_in_batches pr.1 (some batch_size)).1
            else [pr.1]
          let trained :=
            if 0 < batch_size then (train_in_batches pr.1 (some batch_size)).2
            else pr.1.length
          match runCalls ft calls with
          | .ok _ => (.trainedOk trained, attemptedCalls ft calls)
          | .error e => (.trainingFailed e, attemptedCalls ft calls)

/-- Filtering loop of run_recent_prompt_training
(src/backend/services/training_service.py lines 45 to 59): skip empty or
short prompts, optionally skip duplicates, skip prompts under the token
threshold, and stop once the limit is reached (checked after each
append, as in the Python loop). The accumulator is built in reverse and
reversed on exit. -/
def selectGo (ct : String → Int) (min_length : Int) (dedup : Bool)
    (min_tokens : Int) (limit : Int) :
    List String → List String → List String → List String
  | [], acc, _ => acc.reverse
  | p :: ps, acc, seen =>
    if p = "" ∨ (p.trim.length : Int) < min_length then
      selectGo ct min_length dedup min_tokens limit ps acc seen
    else if dedup ∧ p ∈ seen then
      selectGo ct min_length dedup min_tokens limit ps acc seen
    else if ct p < min_tokens then
      selectGo ct min_length dedup min_tokens limit ps acc seen
    else
      let acc2 := p :: acc
      if limit ≤ (acc2.length : Int) then acc2.reverse
      else selectGo ct min_length dedup min_tokens limit ps acc2 (p :: seen)

/-- Results of run_recent_prompt_training: the distinct
no-valid-prompts record, the trained summary, or a propagated
fine-tuning exception. -/
inductive TrainingServiceResult where
  | noValidPrompts
  | trained (samples : Nat)
  | raised (msg : String)
  deriving DecidableEq, Repr

/-- Embedding of run_recent_prompt_training
(src/backend/services/training_service.py lines 14 to 74). The fetched
prompt texts are a parameter (null prompts are the empty string, matching
Python truthiness); count_tokens (backend.utils.tokenizer, absent from
the sources) is a parameter. Returns the result and the fine_tune_model
call trace. -/
def run_recent_prompt_training (ct : String → Int)
    (ft : List String → Except String Unit) (prompts : List String)
    (limit min_length : Int) (dedup : Bool) (min_tokens : Int) :
    TrainingServiceResult × List (List String) :=
  let texts := selectGo ct min_length dedup min_tokens limit prompts [] []
  if texts.isEmpty then (.noValidPrompts, [])
  else
    match ft texts with
    | .ok _ => (.trained texts.length, [texts])
    | .error e => (.raised e, [texts])

theorem flatten_chunks (b : Nat) (l : List String) : (chunks b l).flatten = l := by
  induction b, l using chunks.induct with
  | case1 b => simp [chunks]
  | case2 l => simp [chunks]
  | case3 b t ts ih =>
    rw [chunks]
    simp only [List.flatten_cons, ih, List.take_append_drop]

/-- Claim C10: train_in_batches calls fine_tune_model on consecutive
chunks whose in-order concatenation equals the input and returns the
input length; with a nonpositive or missing batch size it makes exactly
one call on the whole list. -/
theorem train_in_batches_refinement (texts : List String) (b : Option Int) :
    ((train_in_batches texts b).1).flatten = texts
    ∧ (train_in_batches texts b).2 = texts.length
    ∧ ((b = none ∨ ∃ x, b = some x ∧ x ≤ 0) → (train_in_batches texts b).1 = [texts])
    ∧ (∀ x, b = some x → 0 < x → (train_in_batches texts b).1 = chunks x.toNat texts) := by
  cases b with
  | none =>
    refine ⟨by simp [train_in_batches], rfl, fun _ => rfl, ?_⟩
    intro x hx
    exact absurd hx (by simp)
  | some x =>
    by_cases hx : x ≤ 0
    · refine ⟨?_, ?_, ?_, ?_⟩
      · simp [train_in_batches, hx]
      · simp [train_in_batches, hx]
      · intro _; simp [train_in_batches, hx]
      · intro y hy hpos
        have : y = x := by injection hy.symm
        omega
    · refine ⟨?_, ?_, ?_, ?_⟩
      · simp [train_in_batches, hx, flatten_chunks]
      · show (train_in_batches texts (some x)).2 = texts.length
        simp only [train_in_batches, if_neg hx]
        rw [← List.length_flatten, flatten_chunks]
      · rintro (h | ⟨y, hy, hy0⟩)
        · exact absurd h (by simp)
        · have : y = x := by injection hy.symm
          omega
      · intro y hy _
        have hxy : y = x := by injection hy.symm
        subst hxy
        simp [train_in_batches, hx]

/-- Concrete instance of claim C10: batch size 2 over three samples, and
the single-shot paths for a missing and a zero batch size. -/
theorem train_in_batches_refinement_witness :
    ((train_in_batches ["a", "b", "c"] (some 2)).1).flatten = ["a", "b", "c"]
    ∧ (train_in_batches ["a", "b", "c"] (some 2)).2 = ["a", "b", "c"].length
    ∧ (train_in_batches ["a", "b", "c"] (some 2)).1 = chunks (Int.toNat 2) ["a", "b", "c"]
    ∧ (train_in_batches ["d"] none).1 = [["d"]]
    ∧ (train_in_batches ["d"] (some 0)).1 = [["d"]] :=
  ⟨(train_in_batches_refinement ["a", "b", "c"] (some 2)).1,
   (train_in_batches_refinement ["a", "b", "c"] (some 2)).2.1,
   (train_in_batches_refinement ["a", "b", "c"] (some 2)).2.2.2 2 rfl (by decide),
   (train_in_batches_refinement ["d"] none).2.2.1 (Or.inl rfl),
   (train_in_batches_refinement ["d"] (some 0)).2.2.1 (Or.inr ⟨0, rfl, by decide⟩)⟩

/-- Claim C2: the preparation pipeline is total (its embedding is a pure
function), and each caller surfaces an empty post-preprocessing list as
its own distinct outcome: the 422 body of the train endpoint, the
empty-status body of the estimate endpoint, the CLI message branch, and
the no-valid-prompts record of the training service — each if and only
if preprocessing left nothing. -/
theorem empty_preprocessing_surfaced (fc : String → String)
    (tok : Option (String → Nat)) (ft : List String → Except String Unit)
    (ct : String → Int) (p : TrainPayload) (q : EstimatePayload)
    (texts prompts : List String) (min_words limit min_length min_tokens batch_size : Int)
    (dedupe dedup dry_run : Bool) :
    ((train_llm fc tok ft p).1 = .filteredOut422
      ↔ p.texts.isEmpty = false
        ∧ (prepare_texts fc p.texts p.clean p.deduplicate p.min_length).1.isEmpty = true)
    ∧ (estimate_training fc tok q
        = .emptyAfterPreprocessing (prepare_texts fc q.texts q.clean q.deduplicate q.min_length).2
      ↔ q.texts.isEmpty = false
        ∧ (prepare_texts fc q.texts q.clean q.deduplicate q.min_length).1.isEmpty = true)
    ∧ ((cli_main tok ft (.ok texts) min_words dedupe batch_size dry_run).1 = .noneQualified
      ↔ texts.isEmpty = false
        ∧ (sanitize_texts texts min_words dedupe).1.isEmpty = true)
    ∧ ((run_recent_prompt_training ct ft prompts limit min_length dedup min_tokens).1
        = .noValidPrompts
      ↔ (selectGo ct min_length dedup min_tokens limit prompts [] []).isEmpty = true) := by
  refine ⟨?_, ?_, ?_, ?_⟩
  · by_cases h1 : p.texts.isEmpty
    · simp [train_llm, h1]
    · by_cases h2 : (prepare_texts fc p.texts p.clean p.deduplicate p.min_length).1.isEmpty
      · simp [train_llm, h1, h2]
      · by_cases h3 : p.dry_run
        · simp [train_llm, h1, h2, h3]
        · cases hft : ft (prepare_texts fc p.texts p.clean p.deduplicate p.min_length).1 with
          | ok u => simp [train_llm, h1, h2, h3, hft]
          | error e => simp [train_llm, h1, h2, h3, hft]
  · by_cases h1 : q.texts.isEmpty
    · simp [estimate_training, h1]
    · by_cases h2 : (prepare_texts fc q.texts q.clean q.deduplicate q.min_length).1.isEmpty
      · simp [estimate_training, h1, h2]
      · simp [estimate_training, h1, h2]
  · by_cases h1 : texts.isEmpty
    · simp [cli_main, h1]
    · by_cases h2 : (sanitize_texts texts min_words dedupe).1.isEmpty
      · simp [cli_main, h1, h2]
      · by_cases h3 : dry_run
        · simp [cli_main, h1, h2, h3]
        · simp only [cli_main, h1, h2, h3, Bool.false_eq_true, if_false,
            Bool.not_eq_true]
          split <;> simp [h2]
  · by_cases h : (selectGo ct min_length dedup min_tokens limit prompts [] []).isEmpty
    · simp [run_recent_prompt_training, h]
    · cases hft : ft (selectGo ct min_length dedup min_tokens limit prompts [] []) with
      | ok u => simp [run_recent_prompt_training, h, hft]
      | error e => simp [run_recent_prompt_training, h, hft]

/-- Claim C9 (as stated) is false on the code: a dry-run train request
whose samples are all filtered out answers 422, not a simulated-status
body. Concrete input: texts a single two-character string, min_length 5,
dry_run set. -/
theorem dry_run_all_filtered_not_simulated :
    (train_llm id none (fun _ => Except.ok ()) ⟨["ab"], true, false, true, 5⟩).1
      = .filteredOut422
    ∧ (train_llm id none (fun _ => Except.ok ()) ⟨["ab"], true, false, true, 5⟩).1
      ≠ .success "simulated" ((prepare_texts id ["ab"] false true 5).1.length)
          (estimate_tokens none (prepare_texts id ["ab"] false true 5).1) true
          ((prepare_texts id ["ab"] false true 5).2) := by
  decide

/-- Claim C9 amended: with dry_run set, neither the train endpoint nor
the CLI trainer ever calls fine_tune_model; when preprocessing keeps at
least one sample the endpoint answers the simulated-status body with the
preprocessing stats and token estimate, and the CLI reports the dry-run
summary with its token estimate (when everything is filtered out they
answer 422 and the no-samples message instead). -/
theorem dry_run_skips_training (fc : String → String)
    (tok : Option (String → Nat)) (ft : List String → Except String Unit)
    (p : TrainPayload) (texts : List String) (min_words batch_size : Int)
    (dedupe : Bool) (hd : p.dry_run = true) :
    (train_llm fc tok ft p).2 = []
    ∧ (p.texts.isEmpty = false →
        (prepare_texts fc p.texts p.clean p.deduplicate p.min_length).1.isEmpty = false →
        (train_llm fc tok ft p).1
          = .success "simulated"
              ((prepare_texts fc p.texts p.clean p.deduplicate p.min_length).1.length)
              (estimate_tokens tok (prepare_texts fc p.texts p.clean p.deduplicate p.min_length).1)
              true
              ((prepare_texts fc p.texts p.clean p.deduplicate p.min_length).2))
    ∧ (cli_main tok ft (.ok texts) min_words dedupe batch_size true).2 = []
    ∧ (texts.isEmpty = false →
        (sanitize_texts texts min_words dedupe).1.isEmpty = false →
        (cli_main tok ft (.ok texts) min_words dedupe batch_size true).1
          = .dryRunDone texts.length ((sanitize_texts texts min_words dedupe).1.length)
              ((sanitize_texts texts min_words dedupe).2.removed)
              (estimate_tokens tok (sanitize_texts texts min_words dedupe).1)) := by
  refine ⟨?_, ?_, ?_, ?_⟩
  · by_cases h1 : p.texts.isEmpty
    · simp [train_llm, h1]
    · by_cases h2 : (prepare_texts fc p.texts p.clean p.deduplicate p.min_length).1.isEmpty
      · simp [train_llm, h1, h2]
      · simp [train_llm, h1, h2, hd]
  · intro h1 h2
    simp [train_llm, h1, h2, hd]
  · by_cases h1 : texts.isEmpty
    · simp [cli_main, h1]
    · by_cases h2 : (sanitize_texts texts min_words dedupe).1.isEmpty
      · simp [cli_main, h1, h2]
      · simp [cli_main, h1, h2]
  · intro h1 h2
    simp [cli_main, h1, h2]

/-- Concrete instance of the amended dry-run claim. -/
theorem dry_run_skips_training_witness :
    (train_llm id none (fun _ => Except.ok ()) ⟨["hello"], true, false, true, 0⟩).2 = []
    ∧ (train_llm id none (fun _ => Except.ok ()) ⟨["hello"], true, false, true, 0⟩).1
        = .success "simulated" ((prepare_texts id ["hello"] false true 0).1.length)
            (estimate_tokens none (prepare_texts id ["hello"] false true 0).1) true
            ((prepare_texts id ["hello"] false true 0).2)
    ∧ (cli_main none (fun _ => Except.ok ()) (.ok ["hi there"]) 1 false 0 true).2 = []
    ∧ (cli_main none (fun _ => Except.ok ()) (.ok ["hi there"]) 1 false 0 true).1
        = .dryRunDone 1 ((sanitize_texts ["hi there"] 1 false).1.length)
            ((sanitize_texts ["hi there"] 1 false).2.removed)
            (estimate_tokens none (sanitize_texts ["hi there"] 1 false).1) := by
  have h := dry_run_skips_training id none (fun _ => Except.ok ())
    ⟨["hello"], true, false, true, 0⟩ ["hi there"] 1 0 false rfl
  exact ⟨h.1, h.2.1 (by decide) (by decide), h.2.2.1, h.2.2.2 (by decide) (by decide)⟩

/-! ### Users, API keys, authentication, prompt logging -/

/-- A row of the users table (src/backend/db/models.py lines 83 to 106);
timestamps are modelled as integer seconds. -/
structure DBUser where
  id : Nat
  username : String
  api_key : String
  usage_count : Int
  last_accessed : Option Int
  is_active : Bool
  is_deleted : Bool
  created_at : Int
  deriving DecidableEq, Repr

/-- Lowercasing as used by the username validator (per character, which
agrees with Python str.lower on the ASCII reserved names). -/
def pyLower (s : String) : String :=
  String.mk (s.data.map Char.toLower)

/-- Python str.isalnum: nonempty and every character alphanumeric. -/
def pyIsAlnum (s : String) : Bool :=
  !s.isEmpty && s.data.all Char.isAlphanum

/-- Reserved usernames (src/backend/api/routes/user.py line 11). -/
def RESERVED_USERNAMES : List String :=
  ["admin", "root", "system", "llm", "brainz"]

/-- Embedding of the check_reserved validator
(src/backend/api/routes/user.py lines 22 to 28). -/
def check_reserved (value : String) : Except String String :=
  if pyLower value ∈ RESERVED_USERNAMES then
    .error "This username is reserved and cannot be used."
  else if pyIsAlnum value = false then
    .error "Username must be alphanumeric."
  else .ok value

/-- Validation of the user-creation payload: the pydantic field bounds on
username length (3 to 32), then the check_reserved validator. -/
def validate_create_user_payload (username : String) : Except String String :=
  if username.length < 3 ∨ 32 < username.length then
    .error "Username length out of bounds."
  else check_reserved username

/-- Lookup by username (src/backend/services/user_service.py lines 102 to
104). -/
def get_user_by_name (db : List DBUser) (username : String) : Option DBUser :=
  db.find? (fun u => u.username == username)

/-- Lookup by API key (src/backend/services/user_service.py lines 97 to
99). -/
def get_user_by_key (db : List DBUser) (api_key : String) : Option DBUser :=
  db.find? (fun u => u.api_key == api_key)

/-- Embedding of create_user (src/backend/services/user_service.py lines
16 to 49): raise when the username exists, otherwise insert a fresh user
row. The generated API key, the assigned id and the clock are
parameters. -/
def create_user (db : List DBUser) (username : String) (new_api_key : String)
    (new_id : Nat) (now : Int) : Except String (DBUser × List DBUser) :=
  if (get_user_by_name db username).isSome then
    .error ("[brainzaOS] Username already exists: " ++ username)
  else
    let u : DBUser :=
      { id := new_id, username := username, api_key := new_api_key
        usage_count := 0, last_accessed := none
        is_active := true, is_deleted := false, created_at := now }
    .ok (u, db ++ [u])

/-- Responses of POST /api/user/create. -/
inductive CreateUserResponse where
  | validationError422 (msg : String)
  | conflict409
  | created (username api_key : String)
  | serverError500 (msg : String)
  deriving DecidableEq, Repr

/-- Embedding of create_user_endpoint (src/backend/api/routes/user.py
lines 34 to 81): payload validation, duplicate check answering 409, then
creation via the service (whose failure is wrapped as 500). -/
def create_user_endpoint (db : List DBUser) (username new_api_key : String)
    (new_id : Nat) (now : Int) : CreateUserResponse × List DBUser :=
  match validate_create_user_payload username with
  | .error m => (.validationError422 m, db)
  | .ok uname =>
    if (get_user_by_name db uname).isSome then (.conflict409, db)
    else
      match create_user db uname new_api_key new_id now with
      | .ok (u, db2) => (.created u.username u.api_key, db2)
      | .error m => (.serverError500 m, db)

/-- Result dict of validate_api_key; the user field carries id, username
and created_at when valid. -/
structure ApiKeyValidation where
  valid : Bool
  reason : Option String
  user : Option (Nat × String × Int)
  deriving DecidableEq, Repr

/-- Embedding of validate_api_key (src/backend/services/user_service.py
lines 111 to 140). The users table is returned unchanged: the function
performs no write. -/
def validate_api_key (db : List DBUser) (api_key : String)
    (require_active : Bool) : ApiKeyValidation × List DBUser :=
  match get_user_by_key db api_key with
  | none => ({ valid := false, reason := some "not_found", user := none }, db)
  | some u =>
    if require_active ∧ ¬ u.is_active then
      ({ valid := false, reason := some "inactive", user := none }, db)
    else
      ({ valid := true, reason := none
         user := some (u.id, u.username, u.created_at) }, db)

/-- Outcomes of APIKeyAuthMiddleware.dispatch. -/
inductive AuthOutcome where
  | missingKey401
  | invalidKey403
  | authorized (username : String)
  deriving DecidableEq, Repr

/-- Embedding of APIKeyAuthMiddleware.dispatch
(src/backend/api/middleware/auth.py lines 16 to 39): 401 without a key
(Python truthiness also rejects an empty header), 403 for an unknown key,
otherwise the request proceeds with the user attached. It performs no
write to the users table. -/
def dispatch (db : List DBUser) (api_key : Option String) :
    AuthOutcome × List DBUser :=
  match api_key with
  | none => (.missingKey401, db)
  | some k =>
    if k = "" then (.missingKey401, db)
    else
      match get_user_by_key db k with
      | none => (.invalidKey403, db)
      | some u => (.authorized u.username, db)

/-- The usage bump applied to the matching user row: increment
usage_count and set last_accessed. -/
def bumpUser (uid : Nat) (now : Int) (db : List DBUser) : List DBUser :=
  db.map (fun v =>
    if v.id == uid then
      { v with usage_count := v.usage_count + 1, last_accessed := some now }
    else v)

/-- Embedding of touch_user_access (src/backend/db/queries.py lines 256
to 268): bump the user row when it exists, report whether it did. -/
def touch_user_access (db : List DBUser) (user_id : Nat) (now : Int) :
    Bool × List DBUser :=
  match db.find? (fun u => u.id == user_id) with
  | none => (false, db)
  | some _ => (true, bumpUser user_id now db)

/-- Embedding of the _promptlog_after_insert hook
(src/backend/db/models.py lines 161 to 183): when the inserted PromptLog
carries a truthy user_id (not null and nonzero), bump that user row. -/
def promptlog_after_insert (db : List DBUser) (target_user_id : Option Nat)
    (now : Int) : List DBUser :=
  match target_user_id with
  | none => db
  | some uid => if uid = 0 then db else bumpUser uid now db

/-- A row of the prompt_logs table, with the fields the duplicate
suppression reads. -/
structure PromptLogRow where
  prompt : String
  created_at : Int
  deriving DecidableEq, Repr

/-- Embedding of log_prompt (src/backend/services/memory_service.py lines
18 to 63). The cleaning collaborator is a parameter; the stored prompt is
the cleaned text. With allow_duplicates False the insert is skipped when
the most recent row with the identical cleaned prompt satisfies the
Python condition (now - created).seconds < 60, whose seconds field is the
day remainder (now - created) mod 86400. -/
def log_prompt (fc : String → String) (logs : List PromptLogRow)
    (prompt : String) (allow_duplicates : Bool) (now : Int) : List PromptLogRow :=
  let cleaned := fc prompt
  let skip :=
    if allow_duplicates then false
    else
      match (logs.filter (fun e => e.prompt == cleaned)).argmax
          (fun e => e.created_at) with
      | none => false
      | some recent => decide ((now - recent.created_at) % 86400 < 60)
  if skip then logs else logs ++ [{ prompt := cleaned, created_at := now }]

/-! ### Claims about users, authentication and logging -/

/-- Claim C5: a username whose lowercasing is reserved is rejected by
payload validation with the database untouched; with a valid payload and
an existing user of that name the endpoint answers 409 and creates no
row; create_user raises on an existing username. -/
theorem user_creation_rejects_reserved_and_duplicates (db : List DBUser)
    (username new_api_key : String) (new_id : Nat) (now : Int) :
    (pyLower username ∈ RESERVED_USERNAMES →
      ∃ m, create_user_endpoint db username new_api_key new_id now
        = (.validationError422 m, db))
    ∧ (validate_create_user_payload username = .ok username →
      (get_user_by_name db username).isSome = true →
      create_user_endpoint db username new_api_key new_id now = (.conflict409, db))
    ∧ ((get_user_by_name db username).isSome = true →
      create_user db username new_api_key new_id now
        = .error ("[brainzaOS] Username already exists: " ++ username)) := by
  refine ⟨?_, ?_, ?_⟩
  · intro hres
    by_cases hlen : username.length < 3 ∨ 32 < username.length
    · refine ⟨"Username length out of bounds.", ?_⟩
      simp [create_user_endpoint, validate_create_user_payload, hlen]
    · refine ⟨"This username is reserved and cannot be used.", ?_⟩
      simp [create_user_endpoint, validate_create_user_payload, hlen,
        check_reserved, hres]
  · intro hv hex
    simp [create_user_endpoint, hv, hex]
  · intro hex
    simp [create_user, hex]

/-- Concrete instance of claim C5: a reserved username in mixed case, and
a duplicate of an existing user. -/
theorem user_creation_rejects_witness :
    (∃ m, create_user_endpoint [⟨1, "alice", "key1", 0, none, true, false, 0⟩]
        "Admin" "key9" 2 5 = (.validationError422 m,
          [⟨1, "alice", "key1", 0, none, true, false, 0⟩]))
    ∧ create_user_endpoint [⟨1, "alice", "key1", 0, none, true, false, 0⟩]
        "alice" "key9" 2 5 = (.conflict409,
          [⟨1, "alice", "key1", 0, none, true, false, 0⟩])
    ∧ create_user [⟨1, "alice", "key1", 0, none, true, false, 0⟩]
        "alice" "key9" 2 5
        = .error ("[brainzaOS] Username already exists: " ++ "alice") :=
  ⟨(user_creation_rejects_reserved_and_duplicates
      [⟨1, "alice", "key1", 0, none, true, false, 0⟩] "Admin" "key9" 2 5).1
      (by decide),
   (user_creation_rejects_reserved_and_duplicates
      [⟨1, "alice", "key1", 0, none, true, false, 0⟩] "alice" "key9" 2 5).2.1
      rfl (by decide),
   (user_creation_rejects_reserved_and_duplicates
      [⟨1, "alice", "key1", 0, none, true, false, 0⟩] "alice" "key9" 2 5).2.2
      (by decide)⟩

/-- Claim C6: validate_api_key mutates no state, answers not_found when
no user holds the key, inactive when require_active is set and the owner
is inactive, and valid with the owner metadata otherwise. -/
theorem validate_api_key_spec (db : List DBUser) (k : String) (ra : Bool) :
    (validate_api_key db k ra).2 = db
    ∧ (get_user_by_key db k = none →
        (validate_api_key db k ra).1 = ⟨false, some "not_found", none⟩)
    ∧ (∀ u, get_user_by_key db k = some u → ra = true → u.is_active = false →
        (validate_api_key db k ra).1 = ⟨false, some "inactive", none⟩)
    ∧ (∀ u, get_user_by_key db k = some u → (ra = false ∨ u.is_active = true) →
        (validate_api_key db k ra).1
          = ⟨true, none, some (u.id, u.username, u.created_at)⟩) := by
  refine ⟨?_, ?_, ?_, ?_⟩
  · cases hm : get_user_by_key db k with
    | none => simp [validate_api_key, hm]
    | some u =>
      simp only [validate_api_key, hm]
      split <;> rfl
  · intro h; simp [validate_api_key, h]
  · intro u hu hra hia
    simp [validate_api_key, hu, hra, hia]
  · intro u hu hcase
    rcases hcase with h | h <;> simp [validate_api_key, hu, h]

/-- Concrete instance of claim C6 over a two-user table: unknown key,
inactive owner, active owner, and inactive owner with require_active
off. -/
theorem validate_api_key_spec_witness :
    (validate_api_key [⟨1, "bob", "kb", 0, none, true, false, 0⟩,
        ⟨2, "carol", "kc", 0, none, false, true, 0⟩] "kb" true).2
      = [⟨1, "bob", "kb", 0, none, true, false, 0⟩,
         ⟨2, "carol", "kc", 0, none, false, true, 0⟩]
    ∧ (validate_api_key [⟨1, "bob", "kb", 0, none, true, false, 0⟩,
        ⟨2, "carol", "kc", 0, none, false, true, 0⟩] "zz" true).1
      = ⟨false, some "not_found", none⟩
    ∧ (validate_api_key [⟨1, "bob", "kb", 0, none, true, false, 0⟩,
        ⟨2, "carol", "kc", 0, none, false, true, 0⟩] "kc" true).1
      = ⟨false, some "inactive", none⟩
    ∧ (validate_api_key [⟨1, "bob", "kb", 0, none, true, false, 0⟩,
        ⟨2, "carol", "kc", 0, none, false, true, 0⟩] "kb" true).1
      = ⟨true, none, some (1, "bob", 0)⟩
    ∧ (validate_api_key [⟨1, "bob", "kb", 0, none, true, false, 0⟩,
        ⟨2, "carol", "kc", 0, none, false, true, 0⟩] "kc" false).1
      = ⟨true, none, some (2, "carol", 0)⟩ :=
  ⟨(validate_api_key_spec [⟨1, "bob", "kb", 0, none, true, false, 0⟩,
      ⟨2, "carol", "kc", 0, none, false, true, 0⟩] "kb" true).1,
   (validate_api_key_spec [⟨1, "bob", "kb", 0, none, true, false, 0⟩,
      ⟨2, "carol", "kc", 0, none, false, true, 0⟩] "zz" true).2.1 (by decide),
   (validate_api_key_spec [⟨1, "bob", "kb", 0, none, true, false, 0⟩,
      ⟨2, "carol", "kc", 0, none, false, true, 0⟩] "kc" true).2.2.1
     ⟨2, "carol", "kc", 0, none, false, true, 0⟩ (by decide) rfl rfl,
   (validate_api_key_spec [⟨1, "bob", "kb", 0, none, true, false, 0⟩,
      ⟨2, "carol", "kc", 0, none, false, true, 0⟩] "kb" true).2.2.2
     ⟨1, "bob", "kb", 0, none, true, false, 0⟩ (by decide) (Or.inr rfl),
   (validate_api_key_spec [⟨1, "bob", "kb", 0, none, true, false, 0⟩,
      ⟨2, "carol", "kc", 0, none, false, true, 0⟩] "kc" false).2.2.2
     ⟨2, "carol", "kc", 0, none, false, true, 0⟩ (by decide) (Or.inl rfl)⟩

/-- Claim C7 (as stated) is false on the code: an authenticated request
passes through the middleware with the users table unchanged, usage
counter and last-accessed included. Concrete input: one user with usage
count 0, a request carrying their valid key. -/
theorem authenticated_request_does_not_touch_user :
    (dispatch [⟨1, "bob", "kb", 0, none, true, false, 0⟩] (some "kb")).1
      = .authorized "bob"
    ∧ (dispatch [⟨1, "bob", "kb", 0, none, true, false, 0⟩] (some "kb")).2
      = [⟨1, "bob", "kb", 0, none, true, false, 0⟩] := by
  decide

/-- Claim C7 amended: the authentication middleware never writes the
users table; the usage counter and last-accessed are updated only by the
PromptLog after-insert hook when the log row carries a truthy user_id,
and by the touch_user_access helper, neither of which is invoked by any
HTTP request path in the sources. -/
theorem user_row_mutation_sites (db : List DBUser) (key : Option String)
    (uid : Nat) (now : Int) :
    (dispatch db key).2 = db
    ∧ promptlog_after_insert db none now = db
    ∧ (uid ≠ 0 → promptlog_after_insert db (some uid) now = bumpUser uid now db)
    ∧ ((db.find? (fun v => v.id == uid)).isSome = true →
        (touch_user_access db uid now).2 = bumpUser uid now db)
    ∧ (∀ v ∈ db, v.id = uid →
        { v with usage_count := v.usage_count + 1, last_accessed := some now }
          ∈ bumpUser uid now db) := by
  refine ⟨?_, rfl, ?_, ?_, ?_⟩
  · cases key with
    | none => rfl
    | some k =>
      by_cases hk : k = ""
      · simp [dispatch, hk]
      · cases hm : get_user_by_key db k with
        | none => simp [dispatch, hk, hm]
        | some u => simp [dispatch, hk, hm]
  · intro h; simp [promptlog_after_insert, h]
  · intro h
    rcases hf : db.find? (fun v => v.id == uid) with _ | v
    · rw [hf] at h; simp at h
    · simp [touch_user_access, hf]
  · intro v hv hvid
    have hb : (v.id == uid) = true := by simp [hvid]
    rw [bumpUser]
    have hmap := List.mem_map_of_mem (fun w =>
      if w.id == uid then
        { w with usage_count := w.usage_count + 1, last_accessed := some now }
      else w) hv
    simp only [hb, if_true] at hmap
    exact hmap

/-- Concrete instance of the amended user-row mutation claim. -/
theorem user_row_mutation_sites_witness :
    (dispatch [⟨1, "bob", "kb", 3, none, true, false, 0⟩] (some "kb")).2
      = [⟨1, "bob", "kb", 3, none, true, false, 0⟩]
    ∧ promptlog_after_insert [⟨1, "bob", "kb", 3, none, true, false, 0⟩] none 9
      = [⟨1, "bob", "kb", 3, none, true, false, 0⟩]
    ∧ promptlog_after_insert [⟨1, "bob", "kb", 3, none, true, false, 0⟩] (some 1) 9
      = bumpUser 1 9 [⟨1, "bob", "kb", 3, none, true, false, 0⟩]
    ∧ (touch_user_access [⟨1, "bob", "kb", 3, none, true, false, 0⟩] 1 9).2
      = bumpUser 1 9 [⟨1, "bob", "kb", 3, none, true, false, 0⟩]
    ∧ (⟨1, "bob", "kb", 4, some 9, true, false, 0⟩ : DBUser)
      ∈ bumpUser 1 9 [⟨1, "bob", "kb", 3, none, true, false, 0⟩] :=
  ⟨(user_row_mutation_sites [⟨1, "bob", "kb", 3, none, true, false, 0⟩]
      (some "kb") 1 9).1,
   (user_row_mutation_sites [⟨1, "bob", "kb", 3, none, true, false, 0⟩]
      (some "kb") 1 9).2.1,
   (user_row_mutation_sites [⟨1, "bob", "kb", 3, none, true, false, 0⟩]
      (some "kb") 1 9).2.2.1 (by decide),
   (user_row_mutation_sites [⟨1, "bob", "kb", 3, none, true, false, 0⟩]
      (some "kb") 1 9).2.2.2.1 (by decide),
   (user_row_mutation_sites [⟨1, "bob", "kb", 3, none, true, false, 0⟩]
      (some "kb") 1 9).2.2.2.2 ⟨1, "bob", "kb", 3, none, true, false, 0⟩
      (by decide) rfl⟩

/-- Claim C8: the code contradicts its own docstring. A duplicate of the
cleaned prompt logged 86430 seconds earlier (one day and thirty seconds)
is older than the documented 60-second window, yet the insert is
skipped, because the Python expression (now - created).seconds reads the
day remainder 30, not the full age. -/
theorem log_prompt_day_window_bug :
    log_prompt id [{ prompt := "hi", created_at := 0 }] "hi" false 86430
      = [{ prompt := "hi", created_at := 0 }]
    ∧ ¬ ((86430 : Int) - 0 < 60) := by
  constructor
  · decide
  · decide

end BrainzOS
